import Mathlib

/-!
Verification development for `src/domain/transaction.ts` of the marina repository.

The file shallowly embeds the transaction-flow computer (`computeTxDetailsExtended`),
the balance aggregator (`computeBalances`) and the inline block-header cache-aside
logic. External collaborators (the transaction parser, the script decompiler, the
blinding-data store, the witness-utxo lookup, the network configuration and the
chain source) are modelled as components of an explicit environment `Env`, following
the spec's external-interface contracts. Machine numbers are modelled as `Int`
(JavaScript numbers; the spec declares overflow out of scope for this domain).
Stateful collaborators (the block-header repository, the chain-source connection)
are modelled by explicit state passing plus an effect trace recording how many
fetches, connection acquisitions and connection closes a call performed.
-/

set_option maxHeartbeats 1000000

deriving instance DecidableEq for Except

/-- Decoded output value as produced by the external `ElementsValue` decoder:
an explicit amount or a confidential commitment (the spec's `DecodedValue`
tagged union). Reading `.number` of a confidential value is an error in the
decoder; the embedding surfaces that as `TxError.invalidValuePrefix`. -/
inductive DecodedValue where
  | explicit (amount : Int)
  | confidential (commitment : List Nat)
deriving DecidableEq, Repr

/-- The `isConfidential` accessor of the decoded value. -/
def DecodedValue.isConfidential : DecodedValue → Bool
  | .explicit _ => false
  | .confidential _ => true

/-- A transaction output: script bytes, decoded value, and the asset identifier
string that `AssetHash.fromBytes(output.asset).hex` would decode. -/
structure TxOutput where
  script : List Nat
  value : DecodedValue
  asset : String
deriving DecidableEq, Repr

/-- A transaction input: previous-txid hash bytes as serialized, plus the
previous output index. -/
structure TxInput where
  hash : List Nat
  index : Nat
deriving DecidableEq, Repr

/-- A parsed transaction, as `Transaction.fromHex` returns it: id, outputs, inputs. -/
structure Tx where
  txID : String
  outs : List TxOutput
  ins : List TxInput
deriving DecidableEq, Repr

/-- `UnblindingData` from the source: recovered value/asset plus blinding factors. -/
structure UnblindingData where
  value : Int
  asset : String
  assetBlindingFactor : String
  valueBlindingFactor : String
deriving DecidableEq, Repr

/-- A witness utxo as returned by `walletRepository.getWitnessUtxo`: the decoded
value and asset of the previously-seen output being spent. -/
structure WitnessUtxo where
  value : DecodedValue
  asset : String
deriving DecidableEq, Repr

/-- Block header, keyed in the header repository by `(network, height)`. -/
structure BlockHeader where
  height : Int
  data : String
deriving DecidableEq, Repr

/-- Failure taxonomy of the compute call: `missingTransactionData` is the
`'tx hex not found'` throw, `networkNotConfigured` the `'network not found'`
throw, `invalidValuePrefix` the external decoder's error on reading the number
of a confidential value, and `transport` any error propagated unmodified from
the chain-source fetch. -/
inductive TxError where
  | missingTransactionData
  | networkNotConfigured
  | invalidValuePrefix
  | transport
deriving DecidableEq, Repr

/-- `TxDetails` from the source: optional confirmation height (sentinel -1 means
unconfirmed) and optional raw hex. -/
structure TxDetails where
  height : Option Int
  hex : Option String
deriving DecidableEq, Repr

/-- `TxFlow`: per-asset signed deltas, modelled as an insertion-ordered record
with unique keys like a JavaScript object. -/
abbrev FlowMap := List (String × Int)

/-- `TxDetailsExtended` from the source: the record spread plus id, flow, fee
and the optional block header. -/
structure TxDetailsExtended where
  height : Option Int
  hex : Option String
  txID : String
  txFlow : FlowMap
  feeAmount : Int
  blockHeader : Option BlockHeader
deriving DecidableEq, Repr

/-- The environment of external collaborators consumed by the compute call:
parser, script decompiler, wallet repository lookups, network configuration and
chain source (a chain source is present or absent; its fetch can fail, modelled
by `Except Unit`, and the failure propagates as `TxError.transport`). -/
structure Env where
  fromHex : String → Tx
  decompile : List Nat → Option (List Nat)
  getOutputBlindingData : String → Nat → Option UnblindingData
  getWitnessUtxo : String → Nat → Option WitnessUtxo
  getNetwork : Option String
  nativeAsset : String → String
  getChainSource : String → Option Unit
  fetchBlockHeader : Int → Except Unit (Option BlockHeader)

/-- Persistent state of the block-headers repository, keyed by `(network, height)`. -/
structure CacheState where
  headers : List ((String × Int) × BlockHeader)
deriving DecidableEq, Repr

/-- Effect trace of one compute call: chain fetches issued, chain-source
connections acquired, connections closed. -/
structure Trace where
  fetches : Nat
  acquires : Nat
  closes : Nat
deriving DecidableEq, Repr

/-- `blockHeadersRepository.getBlockHeader(network, height)`. -/
def CacheState.get (st : CacheState) (network : String) (height : Int) : Option BlockHeader :=
  (st.headers.find? (fun e => e.1.1 == network && e.1.2 == height)).map Prod.snd

/-- `blockHeadersRepository.setBlockHeader(network, header)`, keyed by the
header's own height. -/
def CacheState.set (st : CacheState) (network : String) (hdr : BlockHeader) : CacheState :=
  ⟨((network, hdr.height), hdr) :: st.headers⟩

/-- Lookup of a key in a flow record (`txFlow[k]`, `none` for a missing key). -/
def lookupFlow : FlowMap → String → Option Int
  | [], _ => none
  | (a, v) :: rest, k => if a = k then some v else lookupFlow rest k

/-- The `txFlow[k] || 0` idiom. -/
def getOr0 (m : FlowMap) (k : String) : Int := (lookupFlow m k).getD 0

/-- Assignment `txFlow[k] = v`: replace in place if present, append otherwise. -/
def setFlow : FlowMap → String → Int → FlowMap
  | [], k, v => [(k, v)]
  | (a, w) :: rest, k, v => if a = k then (a, v) :: rest else (a, w) :: setFlow rest k v

/-- The accumulation idiom `txFlow[k] = (txFlow[k] || 0) + v`. -/
def addFlow (m : FlowMap) (k : String) (v : Int) : FlowMap := setFlow m k (getOr0 m k + v)

/-- `delete txFlow[k]` on a unique-keyed record. -/
def eraseFlow : FlowMap → String → FlowMap
  | [], _ => []
  | (a, w) :: rest, k => if a = k then rest else (a, w) :: eraseFlow rest k

/-- `Object.keys(txFlow)`. -/
def keysFlow (m : FlowMap) : List String := m.map Prod.fst

/-- Hex digit character for a nibble. -/
def hexDigitChar (n : Nat) : Char := if n < 10 then Char.ofNat (48 + n) else Char.ofNat (87 + n)

/-- Two-digit lowercase hex rendering of one byte. -/
def byteToHex (b : Nat) : String := String.mk [hexDigitChar (b / 16 % 16), hexDigitChar (b % 16)]

/-- `Buffer.from(bytes).reverse().toString('hex')`, used to turn an input's raw
hash into the previous transaction id. -/
def reverseHexOfBytes (bytes : List Nat) : String := String.join (bytes.reverse.map byteToHex)

/-- The `OP_RETURN` opcode value checked by the burn-output test. -/
def opReturn : Nat := 106

/-- `script.decompile(s)?.includes(script.OPS.OP_RETURN)`: a failed decompile
(`none`) is falsy, hence not a burn. -/
def isBurnScript (env : Env) (s : List Nat) : Bool :=
  match env.decompile s with
  | some ops => ops.contains opReturn
  | none => false

/-- The output pass of `computeTxDetailsExtended` (source lines 117-138):
empty script is the fee marker (reading a confidential fee value is a decoder
error); a confidential value resolves through the blinding-data store and is
soft-skipped when absent; an explicit value is skipped when the script is a
provable burn and otherwise accumulated under its explicit asset. -/
def outputPass (env : Env) (txID : String) :
    Nat → List TxOutput → Int → FlowMap → Except TxError (Int × FlowMap)
  | _, [], feeAmount, txFlow => .ok (feeAmount, txFlow)
  | outIndex, out :: rest, feeAmount, txFlow =>
    match out.value with
    | .explicit n =>
      if out.script = [] then outputPass env txID (outIndex + 1) rest n txFlow
      else if isBurnScript env out.script then
        outputPass env txID (outIndex + 1) rest feeAmount txFlow
      else outputPass env txID (outIndex + 1) rest feeAmount (addFlow txFlow out.asset n)
    | .confidential _ =>
      if out.script = [] then .error .invalidValuePrefix
      else
        match env.getOutputBlindingData txID outIndex with
        | none => outputPass env txID (outIndex + 1) rest feeAmount txFlow
        | some bd =>
          outputPass env txID (outIndex + 1) rest feeAmount (addFlow txFlow bd.asset bd.value)

/-- The input pass of `computeTxDetailsExtended` (source lines 140-157): resolve
the spent output through the witness-utxo lookup (soft-skip when unknown),
resolve a confidential value through the blinding-data store keyed by the
previous output (soft-skip when absent), and subtract the resolved amount. -/
def inputPass (env : Env) : List TxInput → FlowMap → FlowMap
  | [], txFlow => txFlow
  | inp :: rest, txFlow =>
    match env.getWitnessUtxo (reverseHexOfBytes inp.hash) inp.index with
    | none => inputPass env rest txFlow
    | some out =>
      match out.value with
      | .explicit n => inputPass env rest (addFlow txFlow out.asset (-n))
      | .confidential _ =>
        match env.getOutputBlindingData (reverseHexOfBytes inp.hash) inp.index with
        | none => inputPass env rest txFlow
        | some bd => inputPass env rest (addFlow txFlow bd.asset (-bd.value))

/-- The self-transfer correction (source lines 173-181). In JavaScript a missing
native-asset key makes `txFlow[native] + feeAmount` evaluate to `NaN`, which is
never `=== 0`, so the correction only fires when the native entry is present. -/
def applyCorrection (native : String) (feeAmount : Int) (txFlow : FlowMap) : FlowMap :=
  match lookupFlow txFlow native with
  | none => txFlow
  | some v =>
    if v + feeAmount = 0 then
      if txFlow.length = 1 then setFlow txFlow native 0
      else eraseFlow txFlow native
    else txFlow

/-- Outcome of the block-header resolution segment: either no chain source was
available on a cache miss (the call returns early without header or correction),
or a header value (possibly absent) was resolved. -/
inductive HeaderOutcome where
  | noChainSource
  | resolved (hdr : Option BlockHeader)
deriving DecidableEq, Repr

/-- The cache-aside block-header resolution (source lines 163-171): check the
repository; on miss acquire a chain source (absent means an early plain
return), fetch (a fetch failure propagates before the connection is closed),
persist a present header, then close. -/
def resolveHeader (env : Env) (st : CacheState) (network : String) (hh : Int) :
    Except TxError HeaderOutcome × CacheState × Trace :=
  match st.get network hh with
  | some hdr => (.ok (.resolved (some hdr)), st, ⟨0, 0, 0⟩)
  | none =>
    match env.getChainSource network with
    | none => (.ok .noChainSource, st, ⟨0, 0, 0⟩)
    | some _ =>
      match env.fetchBlockHeader hh with
      | .error _ => (.error .transport, st, ⟨1, 1, 0⟩)
      | .ok ohdr =>
        match ohdr with
        | some hdr => (.ok (.resolved (some hdr)), st.set network hdr, ⟨1, 1, 1⟩)
        | none => (.ok (.resolved none), st, ⟨1, 1, 1⟩)

/-- The tail of the compute call after both passes (source lines 159-190):
unconfirmed records return as-is; otherwise the network is required, the header
is resolved cache-aside, a missing chain source returns the uncorrected flow,
and a completed resolution applies the self-transfer correction. -/
def computeAfter (env : Env) (st : CacheState) (details : TxDetails) (txID : String)
    (feeAmount : Int) (txFlow : FlowMap) :
    Except TxError TxDetailsExtended × CacheState × Trace :=
  match details.height with
  | none => (.ok ⟨details.height, details.hex, txID, txFlow, feeAmount, none⟩, st, ⟨0, 0, 0⟩)
  | some hh =>
    if hh = -1 then
      (.ok ⟨details.height, details.hex, txID, txFlow, feeAmount, none⟩, st, ⟨0, 0, 0⟩)
    else
      match env.getNetwork with
      | none => (.error .networkNotConfigured, st, ⟨0, 0, 0⟩)
      | some network =>
        match resolveHeader env st network hh with
        | (.error e, st2, tr) => (.error e, st2, tr)
        | (.ok .noChainSource, st2, tr) =>
          (.ok ⟨details.height, details.hex, txID, txFlow, feeAmount, none⟩, st2, tr)
        | (.ok (.resolved ohdr), st2, tr) =>
          (.ok ⟨details.height, details.hex, txID,
            applyCorrection (env.nativeAsset network) feeAmount txFlow, feeAmount, ohdr⟩,
            st2, tr)

/-- `computeTxDetailsExtended` (source lines 103-191). The hex guard mirrors the
JavaScript truthiness test `!details.hex`, which also fires on an empty string.
The result triple carries the repository state after the call and the effect
trace of the call. -/
def computeTxDetailsExtended (env : Env) (st : CacheState) (details : TxDetails) :
    Except TxError TxDetailsExtended × CacheState × Trace :=
  match details.hex with
  | none => (.error .missingTransactionData, st, ⟨0, 0, 0⟩)
  | some hx =>
    if hx = "" then (.error .missingTransactionData, st, ⟨0, 0, 0⟩)
    else
      let tx := env.fromHex hx
      match outputPass env tx.txID 0 tx.outs 0 [] with
      | .error e => (.error e, st, ⟨0, 0, 0⟩)
      | .ok (feeAmount, outFlow) =>
        computeAfter env st details tx.txID feeAmount (inputPass env tx.ins outFlow)

/-- `UnblindedOutput` from the source: outpoint plus optional recovered secret. -/
structure UnblindedOutput where
  txID : String
  vout : Nat
  blindingData : Option UnblindingData
deriving DecidableEq, Repr

/-- One step of the balance reduction: outputs without a secret are ignored. -/
def balStep (balances : FlowMap) (utxo : UnblindedOutput) : FlowMap :=
  match utxo.blindingData with
  | none => balances
  | some bd => addFlow balances bd.asset bd.value

/-- `computeBalances` (source lines 49-57). -/
def computeBalances (utxos : List UnblindedOutput) : FlowMap :=
  utxos.foldl balStep []

/-! ### Flow-record lemmas -/

theorem keysFlow_nil : keysFlow [] = [] := rfl

theorem keysFlow_cons (a : String) (w : Int) (rest : FlowMap) :
    keysFlow ((a, w) :: rest) = a :: keysFlow rest := rfl

theorem lookupFlow_setFlow_self (m : FlowMap) (k : String) (v : Int) :
    lookupFlow (setFlow m k v) k = some v := by
  induction m with
  | nil => simp [setFlow, lookupFlow]
  | cons e rest ih =>
    obtain ⟨a, w⟩ := e
    by_cases h : a = k
    · simp [setFlow, h, lookupFlow]
    · simp [setFlow, h, lookupFlow, ih]

theorem lookupFlow_setFlow_ne (m : FlowMap) (k2 k : String) (v : Int) (h : k2 ≠ k) :
    lookupFlow (setFlow m k2 v) k = lookupFlow m k := by
  induction m with
  | nil => simp [setFlow, lookupFlow, h]
  | cons e rest ih =>
    obtain ⟨a, w⟩ := e
    by_cases ha : a = k2
    · subst ha
      simp [setFlow, lookupFlow, h]
    · simp [setFlow, ha, lookupFlow, ih]

theorem lookupFlow_addFlow_self (m : FlowMap) (k : String) (v : Int) :
    lookupFlow (addFlow m k v) k = some (getOr0 m k + v) := by
  simp [addFlow, lookupFlow_setFlow_self]

theorem lookupFlow_addFlow_ne (m : FlowMap) (k2 k : String) (v : Int) (h : k2 ≠ k) :
    lookupFlow (addFlow m k2 v) k = lookupFlow m k := by
  simp [addFlow, lookupFlow_setFlow_ne m k2 k _ h]

theorem mem_keysFlow_setFlow (m : FlowMap) (k a : String) (v : Int) :
    a ∈ keysFlow (setFlow m k v) ↔ a ∈ keysFlow m ∨ a = k := by
  induction m with
  | nil => simp [setFlow, keysFlow]
  | cons e rest ih =>
    obtain ⟨b, w⟩ := e
    by_cases hb : b = k
    · subst hb
      simp [setFlow, keysFlow_cons]
      tauto
    · simp [setFlow, hb, keysFlow_cons, ih]
      tauto

theorem nodup_keysFlow_setFlow (m : FlowMap) (k : String) (v : Int)
    (h : (keysFlow m).Nodup) : (keysFlow (setFlow m k v)).Nodup := by
  induction m with
  | nil => simp [setFlow, keysFlow]
  | cons e rest ih =>
    obtain ⟨b, w⟩ := e
    rw [keysFlow_cons] at h
    obtain ⟨hb, hrest⟩ := List.nodup_cons.mp h
    by_cases hbk : b = k
    · subst hbk
      simpa [setFlow, keysFlow_cons] using h
    · rw [show setFlow ((b, w) :: rest) k v = (b, w) :: setFlow rest k v by simp [setFlow, hbk]]
      rw [keysFlow_cons, List.nodup_cons]
      refine ⟨?_, ih hrest⟩
      intro hmem
      rcases (mem_keysFlow_setFlow rest k b v).mp hmem with h1 | h1
      · exact hb h1
      · exact hbk h1

theorem nodup_keysFlow_addFlow (m : FlowMap) (k : String) (v : Int)
    (h : (keysFlow m).Nodup) : (keysFlow (addFlow m k v)).Nodup :=
  nodup_keysFlow_setFlow m k _ h

theorem lookupFlow_eq_none_of_not_mem (m : FlowMap) (k : String) (h : k ∉ keysFlow m) :
    lookupFlow m k = none := by
  induction m with
  | nil => rfl
  | cons e rest ih =>
    obtain ⟨a, w⟩ := e
    rw [keysFlow_cons] at h
    simp only [List.mem_cons, not_or] at h
    have hak : ¬a = k := fun hh => h.1 hh.symm
    simp [lookupFlow, hak, ih h.2]

theorem mem_keysFlow_of_lookupFlow (m : FlowMap) (k : String) (v : Int)
    (h : lookupFlow m k = some v) : k ∈ keysFlow m := by
  induction m with
  | nil => simp [lookupFlow] at h
  | cons e rest ih =>
    obtain ⟨a, w⟩ := e
    rw [keysFlow_cons]
    by_cases ha : a = k
    · simp [ha]
    · simp only [lookupFlow, ha, if_false] at h
      exact List.mem_cons_of_mem _ (ih h)

theorem lookupFlow_eraseFlow_ne (m : FlowMap) (k a : String) (h : a ≠ k) :
    lookupFlow (eraseFlow m k) a = lookupFlow m a := by
  induction m with
  | nil => rfl
  | cons e rest ih =>
    obtain ⟨b, w⟩ := e
    by_cases hb : b = k
    · subst hb
      have hba : ¬b = a := fun hh => h hh.symm
      simp [eraseFlow, lookupFlow, hba]
    · simp [eraseFlow, hb, lookupFlow, ih]

theorem lookupFlow_eraseFlow_self (m : FlowMap) (k : String)
    (hnd : (keysFlow m).Nodup) : lookupFlow (eraseFlow m k) k = none := by
  induction m with
  | nil => rfl
  | cons e rest ih =>
    obtain ⟨b, w⟩ := e
    rw [keysFlow_cons] at hnd
    obtain ⟨hb, hrest⟩ := List.nodup_cons.mp hnd
    by_cases hbk : b = k
    · subst hbk
      simp only [eraseFlow, if_pos rfl]
      exact lookupFlow_eq_none_of_not_mem rest b hb
    · simp [eraseFlow, hbk, lookupFlow, ih hrest]

/-! ### Pass invariants and classification lemmas -/

theorem outputPass_nodup (env : Env) (txID : String) :
    ∀ (outs : List TxOutput) (i : Nat) (fee : Int) (flow : FlowMap) (fee2 : Int) (flow2 : FlowMap),
      (keysFlow flow).Nodup → outputPass env txID i outs fee flow = .ok (fee2, flow2) →
      (keysFlow flow2).Nodup := by
  intro outs
  induction outs with
  | nil =>
    intro i fee flow fee2 flow2 hnd h
    simp only [outputPass, Except.ok.injEq, Prod.mk.injEq] at h
    rw [← h.2]
    exact hnd
  | cons out rest ih =>
    intro i fee flow fee2 flow2 hnd h
    simp only [outputPass] at h
    cases hv : out.value with
    | explicit n =>
      rw [hv] at h
      dsimp only at h
      by_cases hs : out.script = []
      · simp only [hs, if_pos rfl] at h
        exact ih _ _ _ _ _ hnd h
      · rw [if_neg hs] at h
        by_cases hb : isBurnScript env out.script
        · rw [if_pos hb] at h
          exact ih _ _ _ _ _ hnd h
        · rw [if_neg hb] at h
          exact ih _ _ _ _ _ (nodup_keysFlow_addFlow _ _ _ hnd) h
    | confidential c =>
      rw [hv] at h
      dsimp only at h
      by_cases hs : out.script = []
      · simp [hs] at h
      · rw [if_neg hs] at h
        cases hbd : env.getOutputBlindingData txID i with
        | none =>
          rw [hbd] at h
          dsimp only at h
          exact ih _ _ _ _ _ hnd h
        | some bd =>
          rw [hbd] at h
          dsimp only at h
          exact ih _ _ _ _ _ (nodup_keysFlow_addFlow _ _ _ hnd) h

theorem inputPass_nodup (env : Env) :
    ∀ (ins : List TxInput) (flow : FlowMap), (keysFlow flow).Nodup →
      (keysFlow (inputPass env ins flow)).Nodup := by
  intro ins
  induction ins with
  | nil => intro flow hnd; simpa [inputPass] using hnd
  | cons inp rest ih =>
    intro flow hnd
    simp only [inputPass]
    cases hw : env.getWitnessUtxo (reverseHexOfBytes inp.hash) inp.index with
    | none => exact ih _ hnd
    | some out =>
      dsimp only
      cases hv : out.value with
      | explicit n =>
        dsimp only
        exact ih _ (nodup_keysFlow_addFlow _ _ _ hnd)
      | confidential c =>
        dsimp only
        cases hbd : env.getOutputBlindingData (reverseHexOfBytes inp.hash) inp.index with
        | none => exact ih _ hnd
        | some bd => exact ih _ (nodup_keysFlow_addFlow _ _ _ hnd)

theorem outputPass_error_eq (env : Env) (txID : String) :
    ∀ (outs : List TxOutput) (i : Nat) (fee : Int) (flow : FlowMap) (e : TxError),
      outputPass env txID i outs fee flow = .error e → e = .invalidValuePrefix := by
  intro outs
  induction outs with
  | nil => intro i fee flow e h; simp [outputPass] at h
  | cons out rest ih =>
    intro i fee flow e h
    simp only [outputPass] at h
    cases hv : out.value with
    | explicit n =>
      rw [hv] at h
      dsimp only at h
      by_cases hs : out.script = []
      · rw [if_pos hs] at h
        exact ih _ _ _ _ h
      · rw [if_neg hs] at h
        by_cases hb : isBurnScript env out.script
        · rw [if_pos hb] at h
          exact ih _ _ _ _ h
        · rw [if_neg hb] at h
          exact ih _ _ _ _ h
    | confidential c =>
      rw [hv] at h
      dsimp only at h
      by_cases hs : out.script = []
      · rw [if_pos hs] at h
        exact (Except.error.injEq _ _).mp h.symm
      · rw [if_neg hs] at h
        cases hbd : env.getOutputBlindingData txID i with
        | none => rw [hbd] at h; dsimp only at h; exact ih _ _ _ _ h
        | some bd => rw [hbd] at h; dsimp only at h; exact ih _ _ _ _ h

/-! ### Unfolding lemmas for the compute call -/

theorem resolveHeader_hit (env : Env) (st : CacheState) (n : String) (hh : Int)
    (hdr : BlockHeader) (h : st.get n hh = some hdr) :
    resolveHeader env st n hh = (.ok (.resolved (some hdr)), st, ⟨0, 0, 0⟩) := by
  simp [resolveHeader, h]

theorem resolveHeader_noChainSource (env : Env) (st : CacheState) (n : String) (hh : Int)
    (h1 : st.get n hh = none) (h2 : env.getChainSource n = none) :
    resolveHeader env st n hh = (.ok .noChainSource, st, ⟨0, 0, 0⟩) := by
  simp [resolveHeader, h1, h2]

theorem resolveHeader_fetch_some (env : Env) (st : CacheState) (n : String) (hh : Int)
    (u : Unit) (hdr : BlockHeader) (h1 : st.get n hh = none)
    (h2 : env.getChainSource n = some u) (h3 : env.fetchBlockHeader hh = .ok (some hdr)) :
    resolveHeader env st n hh = (.ok (.resolved (some hdr)), st.set n hdr, ⟨1, 1, 1⟩) := by
  simp [resolveHeader, h1, h2, h3]

theorem resolveHeader_fetch_none (env : Env) (st : CacheState) (n : String) (hh : Int)
    (u : Unit) (h1 : st.get n hh = none) (h2 : env.getChainSource n = some u)
    (h3 : env.fetchBlockHeader hh = .ok none) :
    resolveHeader env st n hh = (.ok (.resolved none), st, ⟨1, 1, 1⟩) := by
  simp [resolveHeader, h1, h2, h3]

theorem resolveHeader_fetch_error (env : Env) (st : CacheState) (n : String) (hh : Int)
    (u v : Unit) (h1 : st.get n hh = none) (h2 : env.getChainSource n = some u)
    (h3 : env.fetchBlockHeader hh = .error v) :
    resolveHeader env st n hh = (.error .transport, st, ⟨1, 1, 0⟩) := by
  simp [resolveHeader, h1, h2, h3]

theorem resolveHeader_cases (env : Env) (st : CacheState) (n : String) (hh : Int) :
    (∃ ohdr st2, resolveHeader env st n hh = (.ok (.resolved ohdr), st2, ⟨1, 1, 1⟩)) ∨
    (∃ ohdr, resolveHeader env st n hh = (.ok (.resolved ohdr), st, ⟨0, 0, 0⟩)) ∨
    resolveHeader env st n hh = (.ok .noChainSource, st, ⟨0, 0, 0⟩) ∨
    resolveHeader env st n hh = (.error .transport, st, ⟨1, 1, 0⟩) := by
  cases h1 : st.get n hh with
  | some hdr => exact Or.inr (Or.inl ⟨some hdr, resolveHeader_hit env st n hh hdr h1⟩)
  | none =>
    cases h2 : env.getChainSource n with
    | none => exact Or.inr (Or.inr (Or.inl (resolveHeader_noChainSource env st n hh h1 h2)))
    | some u =>
      cases h3 : env.fetchBlockHeader hh with
      | error v => exact Or.inr (Or.inr (Or.inr (resolveHeader_fetch_error env st n hh u v h1 h2 h3)))
      | ok ohdr =>
        cases ohdr with
        | some hdr =>
          exact Or.inl ⟨some hdr, st.set n hdr, resolveHeader_fetch_some env st n hh u hdr h1 h2 h3⟩
        | none => exact Or.inl ⟨none, st, resolveHeader_fetch_none env st n hh u h1 h2 h3⟩

theorem computeAfter_unconfirmed (env : Env) (st : CacheState) (d : TxDetails) (t : String)
    (fee : Int) (flow : FlowMap) (h : d.height = none ∨ d.height = some (-1)) :
    computeAfter env st d t fee flow =
      (.ok ⟨d.height, d.hex, t, flow, fee, none⟩, st, ⟨0, 0, 0⟩) := by
  rcases h with h | h <;> simp [computeAfter, h]

theorem computeAfter_network_none (env : Env) (st : CacheState) (d : TxDetails) (t : String)
    (fee : Int) (flow : FlowMap) (hh : Int) (h1 : d.height = some hh) (h2 : hh ≠ -1)
    (h3 : env.getNetwork = none) :
    computeAfter env st d t fee flow = (.error .networkNotConfigured, st, ⟨0, 0, 0⟩) := by
  simp [computeAfter, h1, h2, h3]

theorem computeAfter_resolved (env : Env) (st : CacheState) (d : TxDetails) (t : String)
    (fee : Int) (flow : FlowMap) (hh : Int) (n : String) (ohdr : Option BlockHeader)
    (st2 : CacheState) (tr : Trace) (h1 : d.height = some hh) (h2 : hh ≠ -1)
    (h3 : env.getNetwork = some n)
    (h4 : resolveHeader env st n hh = (.ok (.resolved ohdr), st2, tr)) :
    computeAfter env st d t fee flow =
      (.ok ⟨d.height, d.hex, t, applyCorrection (env.nativeAsset n) fee flow, fee, ohdr⟩,
        st2, tr) := by
  simp [computeAfter, h1, h2, h3, h4]

theorem computeAfter_noChainSource (env : Env) (st : CacheState) (d : TxDetails) (t : String)
    (fee : Int) (flow : FlowMap) (hh : Int) (n : String) (st2 : CacheState) (tr : Trace)
    (h1 : d.height = some hh) (h2 : hh ≠ -1) (h3 : env.getNetwork = some n)
    (h4 : resolveHeader env st n hh = (.ok .noChainSource, st2, tr)) :
    computeAfter env st d t fee flow =
      (.ok ⟨d.height, d.hex, t, flow, fee, none⟩, st2, tr) := by
  simp [computeAfter, h1, h2, h3, h4]

theorem computeAfter_resolve_error (env : Env) (st : CacheState) (d : TxDetails) (t : String)
    (fee : Int) (flow : FlowMap) (hh : Int) (n : String) (e : TxError) (st2 : CacheState)
    (tr : Trace) (h1 : d.height = some hh) (h2 : hh ≠ -1) (h3 : env.getNetwork = some n)
    (h4 : resolveHeader env st n hh = (.error e, st2, tr)) :
    computeAfter env st d t fee flow = (.error e, st2, tr) := by
  simp [computeAfter, h1, h2, h3, h4]

theorem computeTxDetailsExtended_hex_none (env : Env) (st : CacheState) (d : TxDetails)
    (h : d.hex = none) :
    computeTxDetailsExtended env st d = (.error .missingTransactionData, st, ⟨0, 0, 0⟩) := by
  simp [computeTxDetailsExtended, h]

theorem computeTxDetailsExtended_hex_empty (env : Env) (st : CacheState) (d : TxDetails)
    (h : d.hex = some "") :
    computeTxDetailsExtended env st d = (.error .missingTransactionData, st, ⟨0, 0, 0⟩) := by
  simp [computeTxDetailsExtended, h]

theorem computeTxDetailsExtended_pass_error (env : Env) (st : CacheState) (d : TxDetails)
    (hx : String) (e : TxError) (hhex : d.hex = some hx) (hne : hx ≠ "")
    (hout : outputPass env (env.fromHex hx).txID 0 (env.fromHex hx).outs 0 [] = .error e) :
    computeTxDetailsExtended env st d = (.error e, st, ⟨0, 0, 0⟩) := by
  simp only [computeTxDetailsExtended, hhex]
  rw [if_neg hne]
  simp only [hout]

theorem computeTxDetailsExtended_eq_ok (env : Env) (st : CacheState) (d : TxDetails)
    (hx : String) (fee : Int) (f0 : FlowMap) (hhex : d.hex = some hx) (hne : hx ≠ "")
    (hout : outputPass env (env.fromHex hx).txID 0 (env.fromHex hx).outs 0 [] = .ok (fee, f0)) :
    computeTxDetailsExtended env st d =
      computeAfter env st d (env.fromHex hx).txID fee (inputPass env (env.fromHex hx).ins f0) := by
  simp only [computeTxDetailsExtended, hhex]
  rw [if_neg hne]
  simp only [hout]

/-! ### Trace and error classification -/

theorem resolveHeader_fetches_le_one (env : Env) (st : CacheState) (n : String) (hh : Int) :
    (resolveHeader env st n hh).2.2.fetches ≤ 1 := by
  rcases resolveHeader_cases env st n hh with ⟨ohdr, st2, hres⟩ | ⟨ohdr, hres⟩ | hres | hres <;>
    simp [hres]

theorem resolveHeader_closes_eq (env : Env) (st : CacheState) (n : String) (hh : Int)
    (h : (env.fetchBlockHeader hh).isOk = true) :
    (resolveHeader env st n hh).2.2.closes = (resolveHeader env st n hh).2.2.acquires := by
  cases h1 : st.get n hh with
  | some hdr => simp [resolveHeader_hit env st n hh hdr h1]
  | none =>
    cases h2 : env.getChainSource n with
    | none => simp [resolveHeader_noChainSource env st n hh h1 h2]
    | some u =>
      cases h3 : env.fetchBlockHeader hh with
      | error v => rw [h3] at h; simp [Except.isOk, Except.toBool] at h
      | ok ohdr =>
        cases ohdr with
        | some hdr => simp [resolveHeader_fetch_some env st n hh u hdr h1 h2 h3]
        | none => simp [resolveHeader_fetch_none env st n hh u h1 h2 h3]

theorem computeAfter_trace_cases (env : Env) (st : CacheState) (d : TxDetails) (t : String)
    (fee : Int) (flow : FlowMap) :
    (computeAfter env st d t fee flow).2.2 = ⟨0, 0, 0⟩ ∨
    ∃ n hh, env.getNetwork = some n ∧ d.height = some hh ∧
      (computeAfter env st d t fee flow).2 = (resolveHeader env st n hh).2 := by
  cases hht : d.height with
  | none => left; rw [computeAfter_unconfirmed env st d t fee flow (Or.inl hht)]
  | some hh =>
    by_cases hm : hh = -1
    · subst hm
      left
      rw [computeAfter_unconfirmed env st d t fee flow (Or.inr hht)]
    · cases hn : env.getNetwork with
      | none => left; rw [computeAfter_network_none env st d t fee flow hh hht hm hn]
      | some n =>
        right
        refine ⟨n, hh, rfl, rfl, ?_⟩
        rcases resolveHeader_cases env st n hh with ⟨ohdr, st2, hres⟩ | ⟨ohdr, hres⟩ | hres | hres
        · rw [computeAfter_resolved env st d t fee flow hh n ohdr st2 _ hht hm hn hres, hres]
        · rw [computeAfter_resolved env st d t fee flow hh n ohdr st _ hht hm hn hres, hres]
        · rw [computeAfter_noChainSource env st d t fee flow hh n st _ hht hm hn hres, hres]
        · rw [computeAfter_resolve_error env st d t fee flow hh n _ st _ hht hm hn hres, hres]

theorem compute_trace_cases (env : Env) (st : CacheState) (d : TxDetails) :
    (computeTxDetailsExtended env st d).2.2 = ⟨0, 0, 0⟩ ∨
    ∃ n hh, env.getNetwork = some n ∧ d.height = some hh ∧
      (computeTxDetailsExtended env st d).2 = (resolveHeader env st n hh).2 := by
  cases hhex : d.hex with
  | none => left; rw [computeTxDetailsExtended_hex_none env st d hhex]
  | some hx =>
    by_cases hne : hx = ""
    · subst hne
      left
      rw [computeTxDetailsExtended_hex_empty env st d hhex]
    · cases hout : outputPass env (env.fromHex hx).txID 0 (env.fromHex hx).outs 0 [] with
      | error e =>
        left
        rw [computeTxDetailsExtended_pass_error env st d hx e hhex hne hout]
      | ok p =>
        obtain ⟨fee, f0⟩ := p
        rw [computeTxDetailsExtended_eq_ok env st d hx fee f0 hhex hne hout]
        exact computeAfter_trace_cases env st d _ fee _

theorem compute_fetches_le_one (env : Env) (st : CacheState) (d : TxDetails) :
    (computeTxDetailsExtended env st d).2.2.fetches ≤ 1 := by
  rcases compute_trace_cases env st d with h | ⟨n, hh, _, _, h⟩
  · rw [h]
    decide
  · have h2 : (computeTxDetailsExtended env st d).2.2 = (resolveHeader env st n hh).2.2 :=
      congrArg Prod.snd h
    rw [h2]
    exact resolveHeader_fetches_le_one env st n hh

theorem compute_closes_eq (env : Env) (st : CacheState) (d : TxDetails)
    (h : ∀ hh, (env.fetchBlockHeader hh).isOk = true) :
    (computeTxDetailsExtended env st d).2.2.closes =
      (computeTxDetailsExtended env st d).2.2.acquires := by
  rcases compute_trace_cases env st d with h1 | ⟨n, hh, _, _, h1⟩
  · rw [h1]
  · have h2 : (computeTxDetailsExtended env st d).2.2 = (resolveHeader env st n hh).2.2 :=
      congrArg Prod.snd h1
    rw [h2]
    exact resolveHeader_closes_eq env st n hh (h hh)

theorem compute_trace_of_hit (env : Env) (st : CacheState) (d : TxDetails) (n : String)
    (hh : Int) (hdr : BlockHeader) (h1 : d.height = some hh) (h3 : env.getNetwork = some n)
    (h4 : st.get n hh = some hdr) :
    (computeTxDetailsExtended env st d).2.2 = ⟨0, 0, 0⟩ := by
  rcases compute_trace_cases env st d with h | ⟨n2, hh2, hn2, hht2, h⟩
  · exact h
  · rw [hn2] at h3
    rw [hht2] at h1
    have hn : n2 = n := by injection h3
    have hhe : hh2 = hh := by injection h1
    subst hn
    subst hhe
    have h2 : (computeTxDetailsExtended env st d).2.2 = (resolveHeader env st n2 hh2).2.2 :=
      congrArg Prod.snd h
    rw [h2, resolveHeader_hit env st n2 hh2 hdr h4]

theorem computeAfter_error_cases (env : Env) (st : CacheState) (d : TxDetails) (t : String)
    (fee : Int) (flow : FlowMap) (e : TxError)
    (h : (computeAfter env st d t fee flow).1 = .error e) :
    (e = .networkNotConfigured ∧ env.getNetwork = none) ∨ e = .transport := by
  cases hht : d.height with
  | none => rw [computeAfter_unconfirmed env st d t fee flow (Or.inl hht)] at h; simp at h
  | some hh =>
    by_cases hm : hh = -1
    · subst hm
      rw [computeAfter_unconfirmed env st d t fee flow (Or.inr hht)] at h
      simp at h
    · cases hn : env.getNetwork with
      | none =>
        rw [computeAfter_network_none env st d t fee flow hh hht hm hn] at h
        simp only [Except.error.injEq] at h
        exact Or.inl ⟨h.symm, rfl⟩
      | some n =>
        rcases resolveHeader_cases env st n hh with ⟨ohdr, st2, hres⟩ | ⟨ohdr, hres⟩ | hres | hres
        · rw [computeAfter_resolved env st d t fee flow hh n ohdr st2 _ hht hm hn hres] at h
          simp at h
        · rw [computeAfter_resolved env st d t fee flow hh n ohdr st _ hht hm hn hres] at h
          simp at h
        · rw [computeAfter_noChainSource env st d t fee flow hh n st _ hht hm hn hres] at h
          simp at h
        · rw [computeAfter_resolve_error env st d t fee flow hh n _ st _ hht hm hn hres] at h
          simp only [Except.error.injEq] at h
          exact Or.inr h.symm

theorem compute_error_cases (env : Env) (st : CacheState) (d : TxDetails) (e : TxError)
    (h : (computeTxDetailsExtended env st d).1 = .error e) :
    (e = .missingTransactionData ∧ (d.hex = none ∨ d.hex = some "")) ∨
    e = .invalidValuePrefix ∨
    (e = .networkNotConfigured ∧ env.getNetwork = none) ∨
    e = .transport := by
  cases hhex : d.hex with
  | none =>
    rw [computeTxDetailsExtended_hex_none env st d hhex] at h
    simp only [Except.error.injEq] at h
    exact Or.inl ⟨h.symm, Or.inl rfl⟩
  | some hx =>
    by_cases hne : hx = ""
    · subst hne
      rw [computeTxDetailsExtended_hex_empty env st d hhex] at h
      simp only [Except.error.injEq] at h
      exact Or.inl ⟨h.symm, Or.inr rfl⟩
    · cases hout : outputPass env (env.fromHex hx).txID 0 (env.fromHex hx).outs 0 [] with
      | error e2 =>
        rw [computeTxDetailsExtended_pass_error env st d hx e2 hhex hne hout] at h
        simp only [Except.error.injEq] at h
        subst h
        exact Or.inr (Or.inl (outputPass_error_eq env _ _ _ _ _ _ hout))
      | ok p =>
        obtain ⟨fee, f0⟩ := p
        rw [computeTxDetailsExtended_eq_ok env st d hx fee f0 hhex hne hout] at h
        rcases computeAfter_error_cases env st d _ fee _ e h with h2 | h2
        · exact Or.inr (Or.inr (Or.inl h2))
        · exact Or.inr (Or.inr (Or.inr h2))

/-! ### Lookup-independence machinery -/


def lookupVariant (env : Env) (g : String → Nat → Option UnblindingData)
    (w : String → Nat → Option WitnessUtxo) : Env :=
  { env with getOutputBlindingData := g, getWitnessUtxo := w }

theorem outputPass_fee_congr (env : Env) (g : String → Nat → Option UnblindingData)
    (w : String → Nat → Option WitnessUtxo) (txID : String) :
    ∀ (outs : List TxOutput) (i : Nat) (fee : Int) (flow1 flow2 : FlowMap),
      (outputPass (lookupVariant env g w) txID i outs fee flow1).map Prod.fst =
      (outputPass env txID i outs fee flow2).map Prod.fst := by
  intro outs
  induction outs with
  | nil => intro i fee flow1 flow2; simp only [outputPass]; rfl
  | cons out rest ih =>
    intro i fee flow1 flow2
    simp only [outputPass]
    cases hv : out.value with
    | explicit n =>
      dsimp only
      by_cases hs : out.script = []
      · simp only [hs, if_pos rfl]
        exact ih _ _ _ _
      · rw [if_neg hs, if_neg hs]
        have hb2 : isBurnScript (lookupVariant env g w) out.script = isBurnScript env out.script := rfl
        rw [hb2]
        by_cases hb : isBurnScript env out.script
        · rw [if_pos hb, if_pos hb]
          exact ih _ _ _ _
        · rw [if_neg hb, if_neg hb]
          exact ih _ _ _ _
    | confidential c =>
      dsimp only
      by_cases hs : out.script = []
      · simp [hs]
      · rw [if_neg hs, if_neg hs]
        have hg : (lookupVariant env g w).getOutputBlindingData = g := rfl
        rw [hg]
        cases g txID i with
        | none =>
          cases env.getOutputBlindingData txID i with
          | none => dsimp only; exact ih _ _ _ _
          | some bd => dsimp only; exact ih _ _ _ _
        | some bd1 =>
          cases env.getOutputBlindingData txID i with
          | none => dsimp only; exact ih _ _ _ _
          | some bd => dsimp only; exact ih _ _ _ _

theorem computeAfter_map_fee (env : Env) (st : CacheState) (d : TxDetails) (t : String)
    (fee : Int) (flow1 flow2 : FlowMap) :
    ((computeAfter env st d t fee flow1).1.map TxDetailsExtended.feeAmount =
      (computeAfter env st d t fee flow2).1.map TxDetailsExtended.feeAmount) ∧
    ((computeAfter env st d t fee flow1).1.isOk = (computeAfter env st d t fee flow2).1.isOk) ∧
    ((computeAfter env st d t fee flow1).2 = (computeAfter env st d t fee flow2).2) := by
  cases hht : d.height with
  | none =>
    rw [computeAfter_unconfirmed env st d t fee flow1 (Or.inl hht),
        computeAfter_unconfirmed env st d t fee flow2 (Or.inl hht)]
    exact ⟨rfl, rfl, rfl⟩
  | some hh =>
    by_cases hm : hh = -1
    · subst hm
      rw [computeAfter_unconfirmed env st d t fee flow1 (Or.inr hht),
          computeAfter_unconfirmed env st d t fee flow2 (Or.inr hht)]
      exact ⟨rfl, rfl, rfl⟩
    · cases hn : env.getNetwork with
      | none =>
        rw [computeAfter_network_none env st d t fee flow1 hh hht hm hn,
            computeAfter_network_none env st d t fee flow2 hh hht hm hn]
        exact ⟨rfl, rfl, rfl⟩
      | some n =>
        rcases resolveHeader_cases env st n hh with ⟨ohdr, st2, hres⟩ | ⟨ohdr, hres⟩ | hres | hres
        · rw [computeAfter_resolved env st d t fee flow1 hh n ohdr st2 _ hht hm hn hres,
              computeAfter_resolved env st d t fee flow2 hh n ohdr st2 _ hht hm hn hres]
          exact ⟨rfl, rfl, rfl⟩
        · rw [computeAfter_resolved env st d t fee flow1 hh n ohdr st _ hht hm hn hres,
              computeAfter_resolved env st d t fee flow2 hh n ohdr st _ hht hm hn hres]
          exact ⟨rfl, rfl, rfl⟩
        · rw [computeAfter_noChainSource env st d t fee flow1 hh n st _ hht hm hn hres,
              computeAfter_noChainSource env st d t fee flow2 hh n st _ hht hm hn hres]
          exact ⟨rfl, rfl, rfl⟩
        · rw [computeAfter_resolve_error env st d t fee flow1 hh n _ st _ hht hm hn hres,
              computeAfter_resolve_error env st d t fee flow2 hh n _ st _ hht hm hn hres]
          exact ⟨rfl, rfl, rfl⟩

theorem compute_lookup_indep (env : Env) (g : String → Nat → Option UnblindingData)
    (w : String → Nat → Option WitnessUtxo) (st : CacheState) (d : TxDetails) :
    ((computeTxDetailsExtended (lookupVariant env g w) st d).1.map TxDetailsExtended.feeAmount =
      (computeTxDetailsExtended env st d).1.map TxDetailsExtended.feeAmount) ∧
    ((computeTxDetailsExtended (lookupVariant env g w) st d).1.isOk =
      (computeTxDetailsExtended env st d).1.isOk) ∧
    ((computeTxDetailsExtended (lookupVariant env g w) st d).2 =
      (computeTxDetailsExtended env st d).2) := by
  obtain ⟨pf, dc, bl, wu, nw, na, cs, fh⟩ := env
  have hvar : lookupVariant ⟨pf, dc, bl, wu, nw, na, cs, fh⟩ g w = ⟨pf, dc, g, w, nw, na, cs, fh⟩ := rfl
  rw [hvar]
  cases hhex : d.hex with
  | none =>
    rw [computeTxDetailsExtended_hex_none _ st d hhex, computeTxDetailsExtended_hex_none _ st d hhex]
    exact ⟨rfl, rfl, rfl⟩
  | some hx =>
    by_cases hne : hx = ""
    · subst hne
      rw [computeTxDetailsExtended_hex_empty _ st d hhex, computeTxDetailsExtended_hex_empty _ st d hhex]
      exact ⟨rfl, rfl, rfl⟩
    · have hfee := outputPass_fee_congr ⟨pf, dc, bl, wu, nw, na, cs, fh⟩ g w
        ((Env.mk pf dc bl wu nw na cs fh).fromHex hx).txID
        ((Env.mk pf dc bl wu nw na cs fh).fromHex hx).outs 0 0 [] []
      rw [hvar] at hfee
      cases hout : outputPass ⟨pf, dc, bl, wu, nw, na, cs, fh⟩ (pf hx).txID 0 (pf hx).outs 0 [] with
      | error e =>
        rw [hout] at hfee
        cases hout2 : outputPass ⟨pf, dc, g, w, nw, na, cs, fh⟩ (pf hx).txID 0 (pf hx).outs 0 [] with
        | error e2 =>
          rw [hout2] at hfee
          simp only [Except.map] at hfee
          cases hfee
          rw [computeTxDetailsExtended_pass_error ⟨pf, dc, g, w, nw, na, cs, fh⟩ st d hx e hhex hne hout2,
              computeTxDetailsExtended_pass_error ⟨pf, dc, bl, wu, nw, na, cs, fh⟩ st d hx e hhex hne hout]
          exact ⟨rfl, rfl, rfl⟩
        | ok p2 =>
          rw [hout2] at hfee
          simp [Except.map] at hfee
      | ok p =>
        obtain ⟨fee, f0⟩ := p
        rw [hout] at hfee
        cases hout2 : outputPass ⟨pf, dc, g, w, nw, na, cs, fh⟩ (pf hx).txID 0 (pf hx).outs 0 [] with
        | error e2 =>
          rw [hout2] at hfee
          simp [Except.map] at hfee
        | ok p2 =>
          obtain ⟨fee2, f02⟩ := p2
          rw [hout2] at hfee
          simp only [Except.map] at hfee
          cases hfee
          rw [computeTxDetailsExtended_eq_ok ⟨pf, dc, g, w, nw, na, cs, fh⟩ st d hx fee f02 hhex hne hout2,
              computeTxDetailsExtended_eq_ok ⟨pf, dc, bl, wu, nw, na, cs, fh⟩ st d hx fee f0 hhex hne hout]
          have hafter : ∀ (t : String) (ff : Int) (fl : FlowMap),
              computeAfter ⟨pf, dc, g, w, nw, na, cs, fh⟩ st d t ff fl =
              computeAfter ⟨pf, dc, bl, wu, nw, na, cs, fh⟩ st d t ff fl := fun t ff fl => rfl
          rw [hafter]
          exact computeAfter_map_fee ⟨pf, dc, bl, wu, nw, na, cs, fh⟩ st d _ fee _ _

/-! ### Balance characterization -/


def secretVals (l : List UnblindedOutput) (a : String) : List Int :=
  ((l.filterMap (fun u => u.blindingData)).filter (fun bd => bd.asset == a)).map
    (fun bd => bd.value)

theorem computeBalances_foldl (a : String) :
    ∀ (l : List UnblindedOutput) (m : FlowMap),
      lookupFlow (l.foldl balStep m) a =
        if (secretVals l a).isEmpty then lookupFlow m a
        else some (getOr0 m a + (secretVals l a).sum) := by
  intro l
  induction l with
  | nil => intro m; simp [secretVals]
  | cons u rest ih =>
    intro m
    cases hbd : u.blindingData with
    | none =>
      have h1 : secretVals (u :: rest) a = secretVals rest a := by
        simp [secretVals, List.filterMap_cons, hbd]
      have hstep : balStep m u = m := by simp [balStep, hbd]
      rw [List.foldl_cons, hstep, ih, h1]
    | some bd =>
      have hstep : balStep m u = addFlow m bd.asset bd.value := by simp [balStep, hbd]
      by_cases hb : bd.asset = a
      · have h1 : secretVals (u :: rest) a = bd.value :: secretVals rest a := by
          simp [secretVals, List.filterMap_cons, hbd, hb]
        rw [List.foldl_cons, hstep, ih, h1, hb]
        by_cases he : (secretVals rest a).isEmpty
        · rw [if_pos he, if_neg (by simp)]
          rw [lookupFlow_addFlow_self]
          have h2 : secretVals rest a = [] := by
            cases h3 : secretVals rest a with
            | nil => rfl
            | cons x xs => rw [h3] at he; simp at he
          rw [h2]
          simp
        · rw [if_neg he, if_neg (by simp)]
          have h2 : getOr0 (addFlow m a bd.value) a = getOr0 m a + bd.value := by
            rw [getOr0, lookupFlow_addFlow_self]
            rfl
          rw [h2, List.sum_cons]
          congr 1
          ring
      · have h1 : secretVals (u :: rest) a = secretVals rest a := by
          simp [secretVals, List.filterMap_cons, hbd, hb]
        have h2 : lookupFlow (addFlow m bd.asset bd.value) a = lookupFlow m a :=
          lookupFlow_addFlow_ne m bd.asset a _ hb
        have h3 : getOr0 (addFlow m bd.asset bd.value) a = getOr0 m a := by
          rw [getOr0, h2]
          rfl
        rw [List.foldl_cons, hstep, ih, h1, h2, h3]

theorem secretVals_perm (l l2 : List UnblindedOutput) (h : l.Perm l2) (a : String) :
    (secretVals l a).Perm (secretVals l2 a) := by
  unfold secretVals
  exact ((h.filterMap (fun u => u.blindingData)).filter (fun bd => bd.asset == a)).map
    (fun bd => bd.value)

theorem computeBalances_perm_lookup (l l2 : List UnblindedOutput) (h : l.Perm l2) (a : String) :
    lookupFlow (computeBalances l) a = lookupFlow (computeBalances l2) a := by
  have hp := secretVals_perm l l2 h a
  have hsum : (secretVals l a).sum = (secretVals l2 a).sum := hp.sum_eq
  have hlen : (secretVals l a).length = (secretVals l2 a).length := hp.length_eq
  have hempty : (secretVals l a).isEmpty = (secretVals l2 a).isEmpty := by
    cases h1 : secretVals l a with
    | nil =>
      have h2 : secretVals l2 a = [] := by
        rw [h1] at hlen
        exact List.length_eq_zero.mp hlen.symm
      rw [h2]
    | cons x xs =>
      cases h2 : secretVals l2 a with
      | nil => rw [h1, h2] at hlen; simp at hlen
      | cons y ys => rfl
  rw [show computeBalances l = l.foldl balStep [] from rfl,
      show computeBalances l2 = l2.foldl balStep [] from rfl,
      computeBalances_foldl a l [], computeBalances_foldl a l2 [], hsum, hempty]

/-! ### Correction-path helpers -/

theorem flow_singleton_of (flow : FlowMap) (native : String) (v : Int)
    (hlen : flow.length = 1) (hfind : lookupFlow flow native = some v) :
    flow = [(native, v)] := by
  obtain ⟨x, hx⟩ := List.length_eq_one.mp hlen
  obtain ⟨k, w⟩ := x
  subst hx
  by_cases h : k = native
  · subst h
    simp [lookupFlow] at hfind
    rw [hfind]
  · simp [lookupFlow, h] at hfind

theorem applyCorrection_single (native : String) (v fee : Int) (h : v + fee = 0) :
    applyCorrection native fee [(native, v)] = [(native, 0)] := by
  simp [applyCorrection, lookupFlow, h, setFlow]

theorem applyCorrection_erase (native : String) (fee : Int) (flow : FlowMap) (v : Int)
    (hfind : lookupFlow flow native = some v) (h : v + fee = 0) (hlen : flow.length ≠ 1) :
    applyCorrection native fee flow = eraseFlow flow native := by
  simp [applyCorrection, hfind, h, hlen]

theorem compute_correction_applied (env : Env) (st : CacheState) (d : TxDetails) (hx : String)
    (fee : Int) (f0 : FlowMap) (hh : Int) (n : String)
    (hhex : d.hex = some hx) (hne : hx ≠ "")
    (hout : outputPass env (env.fromHex hx).txID 0 (env.fromHex hx).outs 0 [] = .ok (fee, f0))
    (hht : d.height = some hh) (hm : hh ≠ -1) (hn : env.getNetwork = some n)
    (hcomp : (∃ hdr, st.get n hh = some hdr) ∨
      (st.get n hh = none ∧ (env.getChainSource n).isSome = true ∧
        (env.fetchBlockHeader hh).isOk = true)) :
    ∃ r, (computeTxDetailsExtended env st d).1 = .ok r ∧
      r.txFlow = applyCorrection (env.nativeAsset n) fee (inputPass env (env.fromHex hx).ins f0) ∧
      r.feeAmount = fee := by
  rw [computeTxDetailsExtended_eq_ok env st d hx fee f0 hhex hne hout]
  rcases hcomp with ⟨hdr, hget⟩ | ⟨hget, hcs, hfetch⟩
  · rw [computeAfter_resolved env st d _ fee _ hh n (some hdr) st ⟨0, 0, 0⟩ hht hm hn
        (resolveHeader_hit env st n hh hdr hget)]
    exact ⟨_, rfl, rfl, rfl⟩
  · obtain ⟨u, hu⟩ := Option.isSome_iff_exists.mp hcs
    cases hfetchv : env.fetchBlockHeader hh with
    | error v =>
      rw [hfetchv] at hfetch
      simp [Except.isOk, Except.toBool] at hfetch
    | ok ohdr =>
      cases ohdr with
      | some hdr =>
        rw [computeAfter_resolved env st d _ fee _ hh n (some hdr) (st.set n hdr) ⟨1, 1, 1⟩
            hht hm hn (resolveHeader_fetch_some env st n hh u hdr hget hu hfetchv)]
        exact ⟨_, rfl, rfl, rfl⟩
      | none =>
        rw [computeAfter_resolved env st d _ fee _ hh n none st ⟨1, 1, 1⟩ hht hm hn
            (resolveHeader_fetch_none env st n hh u hget hu hfetchv)]
        exact ⟨_, rfl, rfl, rfl⟩

/-! ### Claims -/

/-- C9: `computeBalances` applied to the empty list returns the empty mapping,
and for every list of unblinded outputs and every permutation of that list the
returned per-asset balance mapping is the same (order-invariance). -/
theorem c9_computeBalances_order_invariant :
    computeBalances [] = ([] : FlowMap) ∧
    ∀ (l l2 : List UnblindedOutput), l.Perm l2 →
      ∀ a, lookupFlow (computeBalances l) a = lookupFlow (computeBalances l2) a :=
  ⟨rfl, fun l l2 h a => computeBalances_perm_lookup l l2 h a⟩

/-- Concrete unblinded outputs for the C9 witness. -/
def uW9a : UnblindedOutput := ⟨"t1", 0, some ⟨100, "aa", "", ""⟩⟩

/-- Second concrete unblinded output for the C9 witness. -/
def uW9b : UnblindedOutput := ⟨"t2", 1, some ⟨7, "bb", "", ""⟩⟩

/-- Witness for C9: a concrete two-element list and its swap agree on lookups. -/
theorem c9_witness :
    lookupFlow (computeBalances [uW9a, uW9b]) "aa" =
      lookupFlow (computeBalances [uW9b, uW9a]) "aa" :=
  c9_computeBalances_order_invariant.2 [uW9a, uW9b] [uW9b, uW9a]
    (List.Perm.swap uW9b uW9a []) "aa"

/-- Environment for the C6 counterexample (contents irrelevant to the guard). -/
def envC6 : Env :=
  ⟨fun _ => ⟨"t", [], []⟩, fun _ => none, fun _ _ => none, fun _ _ => none, none,
    fun nid => nid, fun _ => none, fun _ => .ok none⟩

/-- Record with a present but empty hex string. -/
def dC6 : TxDetails := ⟨some 3, some ""⟩

/-- C6 counterexample: the hex field is present (`some ""`, not absent), yet the
call still fails with the missing-transaction-data error, because the JavaScript
truthiness guard `!details.hex` also fires on the empty string. -/
theorem c6_counterexample :
    (computeTxDetailsExtended envC6 ⟨[]⟩ dC6).1 = .error .missingTransactionData ∧
    dC6.hex ≠ none := by
  exact ⟨rfl, by decide⟩

/-- C6 (amended): the missing-transaction-data error is raised exactly when the
record's hex is absent or the empty string, and never otherwise. -/
theorem c6_missing_data_iff (env : Env) (st : CacheState) (d : TxDetails) :
    (computeTxDetailsExtended env st d).1 = .error .missingTransactionData ↔
      (d.hex = none ∨ d.hex = some "") := by
  constructor
  · intro h
    rcases compute_error_cases env st d _ h with ⟨_, h2⟩ | h2 | ⟨h2, _⟩ | h2
    · exact h2
    · exact absurd h2 (by decide)
    · exact absurd h2 (by decide)
    · exact absurd h2 (by decide)
  · intro h
    rcases h with h | h
    · rw [computeTxDetailsExtended_hex_none env st d h]
    · rw [computeTxDetailsExtended_hex_empty env st d h]

/-- C10: for unconfirmed records, and for confirmed records whose header misses
the cache while no chain source is available, the call returns the accumulated
flow exactly as produced by the passes: the self-transfer correction is not
applied, so a native entry equal to minus the fee stays negative, neither zeroed
nor removed. -/
theorem c10_no_correction (env : Env) (st : CacheState) (d : TxDetails) (hx : String)
    (fee : Int) (f0 : FlowMap)
    (hhex : d.hex = some hx) (hne : hx ≠ "")
    (hout : outputPass env (env.fromHex hx).txID 0 (env.fromHex hx).outs 0 [] = .ok (fee, f0)) :
    ((d.height = none ∨ d.height = some (-1)) →
      computeTxDetailsExtended env st d =
        (.ok ⟨d.height, d.hex, (env.fromHex hx).txID, inputPass env (env.fromHex hx).ins f0,
          fee, none⟩, st, ⟨0, 0, 0⟩)) ∧
    (∀ hh n, d.height = some hh → hh ≠ -1 → env.getNetwork = some n →
      st.get n hh = none → env.getChainSource n = none →
      computeTxDetailsExtended env st d =
        (.ok ⟨d.height, d.hex, (env.fromHex hx).txID, inputPass env (env.fromHex hx).ins f0,
          fee, none⟩, st, ⟨0, 0, 0⟩)) := by
  constructor
  · intro hun
    rw [computeTxDetailsExtended_eq_ok env st d hx fee f0 hhex hne hout,
        computeAfter_unconfirmed env st d _ fee _ hun]
  · intro hh n hht hm hn hget hcs
    rw [computeTxDetailsExtended_eq_ok env st d hx fee f0 hhex hne hout,
        computeAfter_noChainSource env st d _ fee _ hh n st ⟨0, 0, 0⟩ hht hm hn
          (resolveHeader_noChainSource env st n hh hget hcs)]

/-- Transaction for the C10 witness: a fee output of 500, a native output of
100, and one input spending a wallet-known native output of 600. -/
def txW10 : Tx :=
  ⟨"txw", [⟨[], .explicit 500, "native"⟩, ⟨[1], .explicit 100, "native"⟩], [⟨[0], 0⟩]⟩

/-- Environment for the C10 witness. -/
def envW10 : Env :=
  ⟨fun _ => txW10, fun s => some s, fun _ _ => none,
    fun _ _ => some ⟨.explicit 600, "native"⟩, some "liquid", fun _ => "native",
    fun _ => none, fun _ => .ok none⟩

/-- Unconfirmed record for the C10 witness. -/
def dW10 : TxDetails := ⟨some (-1), some "beef"⟩

/-- Witness for C10: the unconfirmed self-transfer keeps its accumulated
native entry of -500. -/
theorem c10_witness :
    computeTxDetailsExtended envW10 ⟨[]⟩ dW10 =
      (.ok ⟨some (-1), some "beef", "txw", [("native", -500)], 500, none⟩, ⟨[]⟩, ⟨0, 0, 0⟩) := by
  have h := (c10_no_correction envW10 ⟨[]⟩ dW10 "beef" 500 [("native", 100)] rfl (by decide)
    (by decide)).1 (Or.inr rfl)
  rw [h]
  decide

/-- Transaction for the C5 counterexample: a single explicit fee output. -/
def txC5 : Tx := ⟨"t5", [⟨[], .explicit 2, "native"⟩], []⟩

/-- Environment for the C5 counterexample: network configured, chain source
unavailable. -/
def envC5 : Env :=
  ⟨fun _ => txC5, fun s => some s, fun _ _ => none, fun _ _ => none, some "liquid",
    fun _ => "native", fun _ => none, fun _ => .ok none⟩

/-- Confirmed record for the C5 counterexample. -/
def dC5 : TxDetails := ⟨some 7, some "beef"⟩

/-- Variant of the C5 environment with no active network. -/
def envC5b : Env := { envC5 with getNetwork := none }

/-- C5 counterexample: the chain source is unavailable for a confirmed record
with an uncached header, yet the call returns successfully instead of failing
with the network-not-configured error. -/
theorem c5_counterexample :
    envC5.getChainSource "liquid" = none ∧ dC5.height = some 7 ∧
    (computeTxDetailsExtended envC5 ⟨[]⟩ dC5).1.isOk = true := by decide

/-- C5 (amended): the network-not-configured error is raised exactly when a
confirmed record reaches header resolution with no active network; it is never
raised for unconfirmed records, and never when a network is configured — in
particular chain-source unavailability does not raise it. -/
theorem c5_network_error :
    (∀ (env : Env) (st : CacheState) (d : TxDetails),
      (d.height = none ∨ d.height = some (-1)) →
      (computeTxDetailsExtended env st d).1 ≠ .error .networkNotConfigured) ∧
    (∀ (env : Env) (st : CacheState) (d : TxDetails) (hx : String) (fee : Int) (f0 : FlowMap)
      (hh : Int), d.hex = some hx → hx ≠ "" →
      outputPass env (env.fromHex hx).txID 0 (env.fromHex hx).outs 0 [] = .ok (fee, f0) →
      d.height = some hh → hh ≠ -1 → env.getNetwork = none →
      (computeTxDetailsExtended env st d).1 = .error .networkNotConfigured) ∧
    (∀ (env : Env) (st : CacheState) (d : TxDetails) (n : String), env.getNetwork = some n →
      (computeTxDetailsExtended env st d).1 ≠ .error .networkNotConfigured) := by
  refine ⟨?_, ?_, ?_⟩
  · intro env st d hun h
    cases hhex : d.hex with
    | none =>
      rw [computeTxDetailsExtended_hex_none env st d hhex] at h
      simp at h
    | some hx =>
      by_cases hne : hx = ""
      · subst hne
        rw [computeTxDetailsExtended_hex_empty env st d hhex] at h
        simp at h
      · cases hout : outputPass env (env.fromHex hx).txID 0 (env.fromHex hx).outs 0 [] with
        | error e =>
          rw [computeTxDetailsExtended_pass_error env st d hx e hhex hne hout] at h
          have he := outputPass_error_eq env _ _ _ _ _ _ hout
          subst he
          simp at h
        | ok p =>
          obtain ⟨fee, f0⟩ := p
          rw [computeTxDetailsExtended_eq_ok env st d hx fee f0 hhex hne hout,
              computeAfter_unconfirmed env st d _ fee _ hun] at h
          simp at h
  · intro env st d hx fee f0 hh hhex hne hout hht hm hn
    rw [computeTxDetailsExtended_eq_ok env st d hx fee f0 hhex hne hout,
        computeAfter_network_none env st d _ fee _ hh hht hm hn]
  · intro env st d n hn h
    rcases compute_error_cases env st d _ h with ⟨h2, _⟩ | h2 | ⟨_, h3⟩ | h2
    · exact absurd h2 (by decide)
    · exact absurd h2 (by decide)
    · rw [hn] at h3
      exact Option.noConfusion h3
    · exact absurd h2 (by decide)

/-- Witness for C5: the amended theorem applied at concrete inputs for all
three conjuncts. -/
theorem c5_witness :
    (computeTxDetailsExtended envC5 ⟨[]⟩ ⟨some (-1), some "beef"⟩).1 ≠
      .error .networkNotConfigured ∧
    (computeTxDetailsExtended envC5b ⟨[]⟩ ⟨some 7, some "beef"⟩).1 =
      .error .networkNotConfigured ∧
    (computeTxDetailsExtended envC5 ⟨[]⟩ dC5).1 ≠ .error .networkNotConfigured :=
  ⟨c5_network_error.1 envC5 ⟨[]⟩ ⟨some (-1), some "beef"⟩ (Or.inr rfl),
   c5_network_error.2.1 envC5b ⟨[]⟩ ⟨some 7, some "beef"⟩ "beef" 2 [] 7 rfl (by decide)
     (by decide) rfl (by decide) rfl,
   c5_network_error.2.2 envC5 ⟨[]⟩ dC5 "liquid" rfl⟩

/-- Transaction for the C7 counterexample. -/
def txC7 : Tx := ⟨"t7", [⟨[], .explicit 2, "native"⟩], []⟩

/-- Environment for the C7 counterexample: chain source present, fetch fails. -/
def envC7 : Env :=
  ⟨fun _ => txC7, fun s => some s, fun _ _ => none, fun _ _ => none, some "liquid",
    fun _ => "native", fun _ => some (), fun _ => .error ()⟩

/-- Confirmed record for the C7 counterexample. -/
def dC7 : TxDetails := ⟨some 7, some "beef"⟩

/-- C7 counterexample: the fetch fails on a cache miss; the freshly acquired
chain-source connection is acquired (1) but never closed (0) on that exit path,
and the error propagates. -/
theorem c7_counterexample :
    (computeTxDetailsExtended envC7 ⟨[]⟩ dC7).2.2.acquires = 1 ∧
    (computeTxDetailsExtended envC7 ⟨[]⟩ dC7).2.2.closes = 0 ∧
    (computeTxDetailsExtended envC7 ⟨[]⟩ dC7).1 = .error .transport := by decide

/-- C7 (amended): on every run in which the underlying fetch does not fail,
every acquired chain-source connection is closed (including when the fetch
returns no header); a failing fetch propagates before the close runs. -/
theorem c7_close_on_fetch_ok (env : Env) (st : CacheState) (d : TxDetails)
    (h : ∀ hh, (env.fetchBlockHeader hh).isOk = true) :
    (computeTxDetailsExtended env st d).2.2.closes =
      (computeTxDetailsExtended env st d).2.2.acquires :=
  compute_closes_eq env st d h

/-- Environment for the C7 witness: same as the counterexample but the fetch
succeeds. -/
def envW7 : Env := { envC7 with fetchBlockHeader := fun hh => .ok (some ⟨hh, "x"⟩) }

/-- Witness for C7: with a succeeding fetch the connection is closed. -/
theorem c7_witness :
    (computeTxDetailsExtended envW7 ⟨[]⟩ dC7).2.2.closes =
      (computeTxDetailsExtended envW7 ⟨[]⟩ dC7).2.2.acquires :=
  c7_close_on_fetch_ok envW7 ⟨[]⟩ dC7 (fun _ => rfl)

/-- C8: if after a first compute call the block-header store holds the record's
`(network, height)` key (the miss-fetch-persist completed), a second sequential
call with the same record issues no underlying chain fetch, and the two calls
together issue at most one fetch. -/
theorem c8_cache_single_fetch (env : Env) (st : CacheState) (d : TxDetails) (n : String)
    (hh : Int) (hdr : BlockHeader) (h1 : d.height = some hh) (h3 : env.getNetwork = some n)
    (h4 : ((computeTxDetailsExtended env st d).2.1).get n hh = some hdr) :
    (computeTxDetailsExtended env (computeTxDetailsExtended env st d).2.1 d).2.2.fetches = 0 ∧
    (computeTxDetailsExtended env st d).2.2.fetches +
      (computeTxDetailsExtended env (computeTxDetailsExtended env st d).2.1 d).2.2.fetches
      ≤ 1 := by
  have h5 := compute_trace_of_hit env ((computeTxDetailsExtended env st d).2.1) d n hh hdr
    h1 h3 h4
  constructor
  · rw [h5]
  · rw [h5]
    simpa using compute_fetches_le_one env st d

/-- Transaction for the C8 witness. -/
def txW8 : Tx := ⟨"t8", [⟨[], .explicit 2, "native"⟩], []⟩

/-- Environment for the C8 witness: empty store, available chain source, fetch
returning a header for the requested height. -/
def envW8 : Env :=
  ⟨fun _ => txW8, fun s => some s, fun _ _ => none, fun _ _ => none, some "liquid",
    fun _ => "native", fun _ => some (), fun hh => .ok (some ⟨hh, "x"⟩)⟩

/-- Confirmed record for the C8 witness. -/
def dW8 : TxDetails := ⟨some 7, some "beef"⟩

/-- Witness for C8: the first call misses, fetches and persists; the second call
hits and fetches nothing. -/
theorem c8_witness :
    (computeTxDetailsExtended envW8 (computeTxDetailsExtended envW8 ⟨[]⟩ dW8).2.1
      dW8).2.2.fetches = 0 ∧
    (computeTxDetailsExtended envW8 ⟨[]⟩ dW8).2.2.fetches +
      (computeTxDetailsExtended envW8 (computeTxDetailsExtended envW8 ⟨[]⟩ dW8).2.1
        dW8).2.2.fetches ≤ 1 :=
  c8_cache_single_fetch envW8 ⟨[]⟩ dW8 "liquid" 7 ⟨7, "x"⟩ rfl rfl (by decide)

/-- Transaction for the C1 counterexample: fee 500, native output 100, input
spending a wallet-known native output of 600 (a pure native self-transfer). -/
def txX1 : Tx :=
  ⟨"x1", [⟨[], .explicit 500, "native"⟩, ⟨[1], .explicit 100, "native"⟩], [⟨[0], 0⟩]⟩

/-- Environment for the C1 counterexample. -/
def envX1 : Env :=
  ⟨fun _ => txX1, fun s => some s, fun _ _ => none,
    fun _ _ => some ⟨.explicit 600, "native"⟩, some "liquid", fun _ => "native",
    fun _ => none, fun _ => .ok none⟩

/-- Unconfirmed record with hex present, for the C1 counterexample. -/
def dX1 : TxDetails := ⟨none, some "beef"⟩

/-- C1 counterexample: a record with hex present that is a pure native-asset
self-transfer (single flow entry `native -500`, fee 500) but unconfirmed: the
call returns the entry as the accumulated -500, not the claimed zero. -/
theorem c1_counterexample :
    (computeTxDetailsExtended envX1 ⟨[]⟩ dX1).1 =
      .ok ⟨none, some "beef", "x1", [("native", -500)], 500, none⟩ ∧
    [("native", -500)] ≠ ([("native", 0)] : FlowMap) := by decide

/-- C1 (amended): for a record with hex present that is confirmed (height known
and not -1), with a network configured and the header resolution completing
(cache hit, or chain source available with a non-failing fetch), a pure
native-asset self-transfer — exactly one flow entry, for the native asset,
summing with the fee to zero — yields `flow = { native: 0 }`. -/
theorem c1_self_transfer_zero (env : Env) (st : CacheState) (d : TxDetails) (hx : String)
    (fee v : Int) (f0 flow : FlowMap) (hh : Int) (n : String)
    (hhex : d.hex = some hx) (hne : hx ≠ "")
    (hout : outputPass env (env.fromHex hx).txID 0 (env.fromHex hx).outs 0 [] = .ok (fee, f0))
    (hflow : inputPass env (env.fromHex hx).ins f0 = flow)
    (hht : d.height = some hh) (hm : hh ≠ -1) (hn : env.getNetwork = some n)
    (hcomp : (∃ hdr, st.get n hh = some hdr) ∨
      (st.get n hh = none ∧ (env.getChainSource n).isSome = true ∧
        (env.fetchBlockHeader hh).isOk = true))
    (hfind : lookupFlow flow (env.nativeAsset n) = some v)
    (hzero : v + fee = 0) (hlen : flow.length = 1) :
    ∃ r, (computeTxDetailsExtended env st d).1 = .ok r ∧
      r.txFlow = [(env.nativeAsset n, 0)] := by
  obtain ⟨r, hr, hrflow, _⟩ :=
    compute_correction_applied env st d hx fee f0 hh n hhex hne hout hht hm hn hcomp
  refine ⟨r, hr, ?_⟩
  rw [hrflow, hflow, flow_singleton_of flow _ v hlen hfind]
  exact applyCorrection_single _ v fee hzero

/-- Transaction for the C1 witness (same shape as the counterexample). -/
def txW1 : Tx :=
  ⟨"t1x", [⟨[], .explicit 500, "native"⟩, ⟨[1], .explicit 100, "native"⟩], [⟨[0], 0⟩]⟩

/-- Environment for the C1 witness. -/
def envW1 : Env :=
  ⟨fun _ => txW1, fun s => some s, fun _ _ => none,
    fun _ _ => some ⟨.explicit 600, "native"⟩, some "liquid", fun _ => "native",
    fun _ => none, fun _ => .ok none⟩

/-- Header store for the C1 witness: the record's header is cached. -/
def stW1 : CacheState := ⟨[(("liquid", 7), ⟨7, "h"⟩)]⟩

/-- Confirmed record for the C1 witness. -/
def dW1 : TxDetails := ⟨some 7, some "beef"⟩

/-- Witness for C1: the confirmed self-transfer yields the zero native entry. -/
theorem c1_witness :
    ∃ r, (computeTxDetailsExtended envW1 stW1 dW1).1 = .ok r ∧
      r.txFlow = [("native", 0)] :=
  c1_self_transfer_zero envW1 stW1 dW1 "beef" 500 (-500) [("native", 100)]
    [("native", -500)] 7 "liquid" rfl (by decide) (by decide) (by decide) rfl (by decide)
    rfl (Or.inl ⟨⟨7, "h"⟩, by decide⟩) (by decide) (by decide) (by decide)

/-- Transaction for the C2 counterexample: fee 500, native output 100, an
asset-"aa" output of 42, and an input spending a native output of 600. -/
def txX2 : Tx :=
  ⟨"x2", [⟨[], .explicit 500, "native"⟩, ⟨[1], .explicit 100, "native"⟩,
    ⟨[2], .explicit 42, "aa"⟩], [⟨[0], 0⟩]⟩

/-- Environment for the C2 counterexample. -/
def envX2 : Env :=
  ⟨fun _ => txX2, fun s => some s, fun _ _ => none,
    fun _ _ => some ⟨.explicit 600, "native"⟩, some "liquid", fun _ => "native",
    fun _ => none, fun _ => .ok none⟩

/-- Unconfirmed record with hex present, for the C2 counterexample. -/
def dX2 : TxDetails := ⟨none, some "beef"⟩

/-- C2 counterexample: the native entry is -500 with fee 500 and another asset
entry is present, but because the record is unconfirmed the native entry is not
removed from the returned flow. -/
theorem c2_counterexample :
    (computeTxDetailsExtended envX2 ⟨[]⟩ dX2).1 =
      .ok ⟨none, some "beef", "x2", [("native", -500), ("aa", 42)], 500, none⟩ ∧
    lookupFlow [("native", -500), ("aa", 42)] "native" ≠ none := by decide

/-- C2 (amended): for a record with hex present that is confirmed, with a
network configured and the header resolution completing, if the native flow
entry sums with the fee to zero and at least one other asset entry is present,
the native entry is removed entirely and every other asset's entry is
unchanged. -/
theorem c2_fee_entry_removed (env : Env) (st : CacheState) (d : TxDetails) (hx : String)
    (fee v : Int) (f0 flow : FlowMap) (hh : Int) (n : String) (a0 : String)
    (hhex : d.hex = some hx) (hne : hx ≠ "")
    (hout : outputPass env (env.fromHex hx).txID 0 (env.fromHex hx).outs 0 [] = .ok (fee, f0))
    (hflow : inputPass env (env.fromHex hx).ins f0 = flow)
    (hht : d.height = some hh) (hm : hh ≠ -1) (hn : env.getNetwork = some n)
    (hcomp : (∃ hdr, st.get n hh = some hdr) ∨
      (st.get n hh = none ∧ (env.getChainSource n).isSome = true ∧
        (env.fetchBlockHeader hh).isOk = true))
    (hfind : lookupFlow flow (env.nativeAsset n) = some v)
    (hzero : v + fee = 0)
    (hother : a0 ≠ env.nativeAsset n ∧ (lookupFlow flow a0).isSome = true) :
    ∃ r, (computeTxDetailsExtended env st d).1 = .ok r ∧
      lookupFlow r.txFlow (env.nativeAsset n) = none ∧
      ∀ a, a ≠ env.nativeAsset n → lookupFlow r.txFlow a = lookupFlow flow a := by
  obtain ⟨r, hr, hrflow, _⟩ :=
    compute_correction_applied env st d hx fee f0 hh n hhex hne hout hht hm hn hcomp
  have hnd0 : (keysFlow f0).Nodup :=
    outputPass_nodup env (env.fromHex hx).txID (env.fromHex hx).outs 0 0 [] fee f0
      List.nodup_nil hout
  have hnd : (keysFlow flow).Nodup := by
    rw [← hflow]
    exact inputPass_nodup env (env.fromHex hx).ins f0 hnd0
  obtain ⟨hne0, hsome⟩ := hother
  obtain ⟨w0, hw0⟩ := Option.isSome_iff_exists.mp hsome
  have hmemn : env.nativeAsset n ∈ keysFlow flow := mem_keysFlow_of_lookupFlow flow _ v hfind
  have hmem0 : a0 ∈ keysFlow flow := mem_keysFlow_of_lookupFlow flow _ w0 hw0
  have hlen : flow.length ≠ 1 := by
    intro hlen1
    obtain ⟨x, hx1⟩ := List.length_eq_one.mp hlen1
    obtain ⟨k, w⟩ := x
    rw [hx1] at hmemn hmem0
    simp [keysFlow] at hmemn hmem0
    exact hne0 (hmem0.trans hmemn.symm)
  refine ⟨r, hr, ?_, ?_⟩
  · rw [hrflow, hflow, applyCorrection_erase _ fee flow v hfind hzero hlen]
    exact lookupFlow_eraseFlow_self flow _ hnd
  · intro a ha
    rw [hrflow, hflow, applyCorrection_erase _ fee flow v hfind hzero hlen]
    exact lookupFlow_eraseFlow_ne flow _ a ha

/-- Transaction for the C2 witness (confirmed variant of the counterexample). -/
def txW2 : Tx :=
  ⟨"t2x", [⟨[], .explicit 500, "native"⟩, ⟨[1], .explicit 100, "native"⟩,
    ⟨[2], .explicit 42, "aa"⟩], [⟨[0], 0⟩]⟩

/-- Environment for the C2 witness. -/
def envW2 : Env :=
  ⟨fun _ => txW2, fun s => some s, fun _ _ => none,
    fun _ _ => some ⟨.explicit 600, "native"⟩, some "liquid", fun _ => "native",
    fun _ => none, fun _ => .ok none⟩

/-- Header store for the C2 witness. -/
def stW2 : CacheState := ⟨[(("liquid", 7), ⟨7, "h"⟩)]⟩

/-- Confirmed record for the C2 witness. -/
def dW2 : TxDetails := ⟨some 7, some "beef"⟩

/-- Witness for C2: the native entry is dropped and the "aa" entry survives. -/
theorem c2_witness :
    ∃ r, (computeTxDetailsExtended envW2 stW2 dW2).1 = .ok r ∧
      lookupFlow r.txFlow "native" = none ∧ lookupFlow r.txFlow "aa" = some 42 := by
  obtain ⟨r, hr, hnone, hoth⟩ := c2_fee_entry_removed envW2 stW2 dW2 "beef" 500 (-500)
    [("native", 100), ("aa", 42)] [("native", -500), ("aa", 42)] 7 "liquid" "aa"
    rfl (by decide) (by decide) (by decide) rfl (by decide) rfl
    (Or.inl ⟨⟨7, "h"⟩, by decide⟩) (by decide) (by decide) ⟨by decide, by decide⟩
  refine ⟨r, hr, hnone, ?_⟩
  rw [hoth "aa" (by decide)]
  decide

/-- Transaction for the C3 counterexample: a fee output plus a confidential
output whose script decompiles to contain OP_RETURN. -/
def txC3 : Tx := ⟨"t3", [⟨[], .explicit 1, "native"⟩, ⟨[106], .confidential [9], "zz"⟩], []⟩

/-- Environment for the C3 counterexample: the blinding-data store knows the
burn output's secret (value 5 of asset "aa"). -/
def envC3 : Env :=
  ⟨fun _ => txC3, fun s => some s, fun _ _ => some ⟨5, "aa", "", ""⟩, fun _ _ => none,
    none, fun _ => "native", fun _ => none, fun _ => .ok none⟩

/-- Unconfirmed record for the C3 counterexample. -/
def dC3 : TxDetails := ⟨none, some "beef"⟩

/-- C3 counterexample: the output's non-empty script is a provable burn, its
value is confidential and its secret is known — and it does contribute 5 of
asset "aa" to the returned flow, because the confidential branch runs before the
burn check. -/
theorem c3_counterexample :
    isBurnScript envC3 [106] = true ∧
    (computeTxDetailsExtended envC3 ⟨[]⟩ dC3).1 =
      .ok ⟨none, some "beef", "t3", [("aa", 5)], 1, none⟩ := by decide

/-- C3 (amended): an explicit-valued output whose non-empty script is a provable
burn is skipped: processing it leaves the fee and the flow accumulator exactly
unchanged; confidential-valued outputs take the blinding-data branch instead,
regardless of their script. -/
theorem c3_burn_skip (env : Env) (txID : String) (i : Nat) (scr : List Nat) (n : Int)
    (a : String) (rest : List TxOutput) (fee : Int) (flow : FlowMap)
    (hscr : scr ≠ []) (hburn : isBurnScript env scr = true) :
    outputPass env txID i (⟨scr, .explicit n, a⟩ :: rest) fee flow =
      outputPass env txID (i + 1) rest fee flow := by
  simp [outputPass, hscr, hburn]

/-- Witness for C3: a concrete explicit burn output is skipped. -/
theorem c3_witness :
    outputPass envC3 "t3" 1 [⟨[106], .explicit 4, "aa"⟩] 1 [] =
      outputPass envC3 "t3" 2 [] 1 [] :=
  c3_burn_skip envC3 "t3" 1 [106] 4 "aa" [] 1 [] (by decide) (by decide)

/-- C4: absent lookups never cause failure. First conjunct: replacing the
blinding-data and witness-utxo lookups by any others (in particular all-absent
ones) never changes whether the call succeeds, which error it returns, the fee,
the resulting store state or the effect trace — only the flow. The remaining
conjuncts: an output with a confidential value and no recovered secret, an input
whose spent output is unknown, and an input whose spent output is confidential
with no recovered secret each contribute nothing: processing them leaves the
accumulators exactly unchanged. -/
theorem c4_soft_skip :
    (∀ (env : Env) (g : String → Nat → Option UnblindingData)
        (w : String → Nat → Option WitnessUtxo) (st : CacheState) (d : TxDetails),
      ((computeTxDetailsExtended (lookupVariant env g w) st d).1.isOk =
        (computeTxDetailsExtended env st d).1.isOk) ∧
      ((computeTxDetailsExtended (lookupVariant env g w) st d).1.map
          TxDetailsExtended.feeAmount =
        (computeTxDetailsExtended env st d).1.map TxDetailsExtended.feeAmount) ∧
      ((computeTxDetailsExtended (lookupVariant env g w) st d).2 =
        (computeTxDetailsExtended env st d).2)) ∧
    (∀ (env : Env) (txID : String) (i : Nat) (scr c : List Nat) (a : String)
        (rest : List TxOutput) (fee : Int) (flow : FlowMap), scr ≠ [] →
      env.getOutputBlindingData txID i = none →
      outputPass env txID i (⟨scr, .confidential c, a⟩ :: rest) fee flow =
        outputPass env txID (i + 1) rest fee flow) ∧
    (∀ (env : Env) (inp : TxInput) (rest : List TxInput) (flow : FlowMap),
      env.getWitnessUtxo (reverseHexOfBytes inp.hash) inp.index = none →
      inputPass env (inp :: rest) flow = inputPass env rest flow) ∧
    (∀ (env : Env) (inp : TxInput) (rest : List TxInput) (flow : FlowMap) (c : List Nat)
        (a : String),
      env.getWitnessUtxo (reverseHexOfBytes inp.hash) inp.index = some ⟨.confidential c, a⟩ →
      env.getOutputBlindingData (reverseHexOfBytes inp.hash) inp.index = none →
      inputPass env (inp :: rest) flow = inputPass env rest flow) := by
  refine ⟨?_, ?_, ?_, ?_⟩
  · intro env g w st d
    obtain ⟨h1, h2, h3⟩ := compute_lookup_indep env g w st d
    exact ⟨h2, h1, h3⟩
  · intro env txID i scr c a rest fee flow hscr hbd
    simp [outputPass, hscr, hbd]
  · intro env inp rest flow hw
    simp [inputPass, hw]
  · intro env inp rest flow c a hw hbd
    simp [inputPass, hw, hbd]

/-- Environment for the C4 witness: one confidential output and one input, with
every lookup absent. -/
def envC4 : Env :=
  ⟨fun _ => ⟨"t4", [⟨[], .explicit 3, "native"⟩, ⟨[1], .confidential [2], "x"⟩], [⟨[0], 0⟩]⟩,
    fun s => some s, fun _ _ => none, fun _ _ => none, none, fun _ => "native",
    fun _ => none, fun _ => .ok none⟩

/-- Unconfirmed record for the C4 witness. -/
def dC4 : TxDetails := ⟨none, some "beef"⟩

/-- Witness for C4: the theorem instantiated at concrete absent lookups. -/
theorem c4_witness :
    ((computeTxDetailsExtended (lookupVariant envC4 (fun _ _ => none) (fun _ _ => none))
        ⟨[]⟩ dC4).1.isOk = (computeTxDetailsExtended envC4 ⟨[]⟩ dC4).1.isOk) ∧
    outputPass envC4 "t4" 1 [⟨[1], .confidential [2], "x"⟩] 3 [] =
      outputPass envC4 "t4" 2 [] 3 [] ∧
    inputPass envC4 [⟨[0], 0⟩] [] = inputPass envC4 [] [] :=
  ⟨(c4_soft_skip.1 envC4 (fun _ _ => none) (fun _ _ => none) ⟨[]⟩ dC4).1,
   c4_soft_skip.2.1 envC4 "t4" 1 [1] [2] "x" [] 3 [] (by decide) rfl,
   c4_soft_skip.2.2.1 envC4 ⟨[0], 0⟩ [] [] rfl⟩
